import Mathlib

/-!
Verification of the normalization/validation core of the relay repository.

The development shallowly embeds the two central source modules:

* `src/src/processor.rs` - the generic annotated-value data model and the
  bidirectional conversion layer (`FromValue` / `ToValue`), including the
  `DateTime<Utc>` conversions and `extract_meta_tree`;
* `src/relay-general/src/store/transactions.rs` - the transaction validator
  (`TransactionsProcessor`).

Machine floats (`f64`) are modelled as rationals: all of the numeric claims
under scrutiny concern numeric content at or above microsecond granularity,
where rational arithmetic agrees with the double-precision computation of the
source. Rust `&mut` mutation is modelled by explicit state passing, and a Rust
panic (an `unwrap`/`expect` failure) is modelled by `Option.none` at the
outermost level of the embedded function's result.
-/

namespace Relay

/-- Modelled from the spec: the Meta diagnostic record attached to every tree
node - accumulated error messages plus a set of processing flags. Its defining
module (meta.rs) is not among the provided sources; the spec describes it as
"zero or more structured errors ... plus a set of flags". -/
structure Meta where
  errors : List String
  flags : List String
deriving DecidableEq, Repr

/-- Modelled from the spec: a fresh Meta with no errors and no flags. -/
def Meta.empty : Meta := { errors := [], flags := [] }

/-- Modelled from the spec: Meta exposes add_error(message), which never fails
and appends one error message. -/
def Meta.add_error (m : Meta) (msg : String) : Meta :=
  { m with errors := m.errors ++ [msg] }

/-- Modelled from the spec: a Meta is empty when it carries no errors and no
flags. -/
def Meta.is_empty (m : Meta) : Bool :=
  m.errors.isEmpty && m.flags.isEmpty

/-- The untyped value tree (the Value enum of the meta module, with the
variants listed by the spec data model: Null, Bool, U64, I64, F64, String,
Array, Object). Floats are modelled as rationals. Array and Object children
are annotated values, i.e. pairs of an optional value and a Meta. -/
inductive Value where
  | null
  | bool (b : Bool)
  | u64 (n : Nat)
  | i64 (n : Int)
  | f64 (x : ℚ)
  | str (s : String)
  | array (items : List (Option Value × Meta))
  | object (items : List (String × (Option Value × Meta)))

/-- Annotated T pairs an optional value with its Meta, mirroring the Rust
tuple struct Annotated(Option T, Meta); component access is through .1/.2 just
as the source uses .0/.1. -/
abbrev Annotated (α : Type) : Type := Option α × Meta

/-- FromValue for String, the expansion of the primitive_meta_structure macro
(processor.rs lines 331-345 at instantiation line 370): an exact variant match
keeps the value, Null and absence yield an absent value without error, and any
other variant yields an absent value with one "expected a string" error. -/
def String.from_value : Annotated Value → Annotated String
  | (some (Value.str s), meta) => (some s, meta)
  | (some Value.null, meta) => (none, meta)
  | (none, meta) => (none, meta)
  | (some _, meta) => (none, meta.add_error "expected a string")

/-- ToValue for String (processor.rs lines 347-354 at instantiation 370). -/
def String.to_value : Annotated String → Annotated Value
  | (some s, meta) => (some (Value.str s), meta)
  | (none, meta) => (none, meta)

/-- FromValue for bool, the expansion of the primitive_meta_structure macro at
instantiation line 371. -/
def Bool.from_value : Annotated Value → Annotated Bool
  | (some (Value.bool b), meta) => (some b, meta)
  | (some Value.null, meta) => (none, meta)
  | (none, meta) => (none, meta)
  | (some _, meta) => (none, meta.add_error "expected a boolean")

/-- ToValue for bool (instantiation line 371). -/
def Bool.to_value : Annotated Bool → Annotated Value
  | (some b, meta) => (some (Value.bool b), meta)
  | (none, meta) => (none, meta)

/-- FromValue for Vec (processor.rs lines 377-392), parameterized by the
element type's from_value: an Array maps the element conversion over its
items, Null and absence yield an absent collection, and any other variant
yields an absent collection with one "expected array" error. -/
def Vec.from_value (f : Annotated Value → Annotated α) :
    Annotated Value → Annotated (List (Annotated α))
  | (some (Value.array items), meta) => (some (items.map f), meta)
  | (some Value.null, meta) => (none, meta)
  | (none, meta) => (none, meta)
  | (some _, meta) => (none, meta.add_error "expected array")

/-- The diagnostics tree extracted from an annotated tree: the node's Meta
plus named child subtrees (MetaTree of the meta module; children keyed by
field name or stringified index). -/
inductive MetaTree where
  | node (meta : Meta) (children : List (String × MetaTree))

/-- Meta component of a MetaTree node. -/
def MetaTree.meta : MetaTree → Meta
  | .node m _ => m

/-- Children component of a MetaTree node. -/
def MetaTree.children : MetaTree → List (String × MetaTree)
  | .node _ cs => cs

mutual

/-- Modelled from the spec: a MetaTree is empty when its own Meta is empty and
every child subtree is recursively empty ("whose errors and flags
(recursively) are all empty"). -/
def MetaTree.is_empty : MetaTree → Bool
  | .node m cs => m.is_empty && MetaTree.children_empty cs

/-- Helper for MetaTree.is_empty: all child subtrees in the list are empty. -/
def MetaTree.children_empty : List (String × MetaTree) → Bool
  | [] => true
  | c :: cs => c.2.is_empty && MetaTree.children_empty cs

end

/-- The default extract_meta_tree for non-composite leaves (processor.rs lines
282-291): just this node's Meta, with no children. -/
def extract_meta_tree_leaf (value : Annotated α) : MetaTree :=
  .node value.2 []

/-- extract_meta_tree of ToValue for Vec (processor.rs lines 424-442),
parameterized by the element type's extract_meta_tree: the node's Meta, and
for a present collection the subtree of child index idx is attached under key
toString idx exactly when that subtree is non-empty. -/
def Vec.extract_meta_tree (f : Annotated α → MetaTree)
    (value : Annotated (List (Annotated α))) : MetaTree :=
  .node value.2 (match value.1 with
    | some items =>
      (items.enum.map (fun p => (toString p.1, f p.2))).filter
        (fun c => !c.2.is_empty)
    | none => [])

/-- extract_meta_tree of ToValue for BTreeMap (processor.rs lines 527-545),
parameterized by the element type's extract_meta_tree; the mapping is modelled
as an association list. A child's subtree is attached under its key exactly
when that subtree is non-empty. -/
def Map.extract_meta_tree (f : Annotated α → MetaTree)
    (value : Annotated (List (String × Annotated α))) : MetaTree :=
  .node value.2 (match value.1 with
    | some items =>
      (items.map (fun p => (p.1, f p.2))).filter (fun c => !c.2.is_empty)
    | none => [])

/-- A chrono DateTime in UTC, reduced to its timestamp: whole seconds since
the epoch plus a nonnegative subsecond nanosecond part. -/
structure DateTime where
  secs : Int
  nanos : Nat
deriving DecidableEq, Repr

/-- Modelled from chrono (external dependency of the source): the smallest
timestamp second representable by a chrono DateTime. -/
def chronoMinTimestamp : Int := -8334632851200

/-- Modelled from chrono (external dependency of the source): the largest
timestamp second representable by a chrono DateTime. -/
def chronoMaxTimestamp : Int := 8210298412799

/-- Modelled from chrono: Utc.timestamp_opt yields a DateTime when the second
count lies in the representable range and the nanosecond part is admissible
(below two seconds, allowing a leap second), and nothing otherwise. -/
def timestamp_opt (secs : Int) (nanos : Nat) : Option DateTime :=
  if chronoMinTimestamp ≤ secs ∧ secs ≤ chronoMaxTimestamp ∧ nanos < 2000000000
  then some ⟨secs, nanos⟩ else none

/-- Truncation of a rational toward zero, the rounding used by Rust float to
integer casts and by f64::fract. -/
def ratTrunc (q : ℚ) : Int :=
  if 0 ≤ q.num then q.num / q.den else -(-q.num / q.den)

/-- The Rust cast expression `ts as i64` on a float: truncation toward zero,
saturating at the i64 bounds. -/
def f64_as_i64 (q : ℚ) : Int :=
  if q < -9223372036854775808 then -9223372036854775808
  else if 9223372036854775807 < q then 9223372036854775807
  else ratTrunc q

/-- The Rust cast expression `x as u32` on a float: truncation toward zero,
clamped to the u32 range. -/
def f64_as_u32 (q : ℚ) : Nat :=
  if q < 0 then 0
  else if 4294967295 < q then 4294967295
  else (ratTrunc q).toNat

/-- The Rust cast expression `ts as i64` on a u64: a wrapping reinterpretation
of the 64-bit pattern. -/
def u64_as_i64 (n : Nat) : Int :=
  if n < 9223372036854775808 then (n : Int) else (n : Int) - 18446744073709551616

/-- FromValue for DateTime (processor.rs lines 670-705), parameterized by the
external ISO-8601 string parser (chrono's NaiveDateTime / DateTime parsing,
which either yields a DateTime or an error message). A U64 or I64 value is
interpreted as epoch seconds, an F64 value as epoch seconds with the
fractional part converted to microseconds; each numeric arm unwraps
Utc.timestamp_opt, so a result of none models the panic of that unwrap when
the seconds fall outside chrono's representable range. -/
def DateTime.from_value (parse : String → Except String DateTime) :
    Annotated Value → Option (Annotated DateTime)
  | (some (Value.str s), meta) =>
    match parse s with
    | Except.ok dt => some (some dt, meta)
    | Except.error e => some (none, meta.add_error e)
  | (some (Value.u64 ts), meta) =>
    (timestamp_opt (u64_as_i64 ts) 0).map (fun dt => (some dt, meta))
  | (some (Value.i64 ts), meta) =>
    (timestamp_opt ts 0).map (fun dt => (some dt, meta))
  | (some (Value.f64 ts), meta) =>
    let secs := f64_as_i64 ts
    let micros := f64_as_u32 ((ts - (ratTrunc ts : ℚ)) * 1000000)
    (timestamp_opt secs (micros * 1000)).map (fun dt => (some dt, meta))
  | (some Value.null, meta) => some (none, meta)
  | (none, meta) => some (none, meta)
  | (some _, meta) => some (none, meta.add_error "expected timestamp")

/-- datetime_to_timestamp (processor.rs lines 665-668): the timestamp seconds
plus the microsecond fraction, computed exactly over the rationals. The
microsecond count is chrono's timestamp_subsec_micros, i.e. the nanosecond
part divided by 1000. -/
def datetime_to_timestamp (dt : DateTime) : ℚ :=
  (dt.secs : ℚ) + ((dt.nanos / 1000 : Nat) : ℚ) / 1000000

/-- ToValue for DateTime (processor.rs lines 707-715): a present datetime
serializes as the F64 produced by datetime_to_timestamp. -/
def DateTime.to_value : Annotated DateTime → Annotated Value
  | (some dt, meta) => (some (Value.f64 (datetime_to_timestamp dt)), meta)
  | (none, meta) => (none, meta)

/-- A protocol timestamp of the transaction validator, modelled as an integer
tick count (chrono DateTime arithmetic at whole-tick granularity); the
representable range is chrono's. -/
abbrev Timestamp := Int

/-- Modelled from chrono: DateTime::checked_sub_signed - the shifted
timestamp when the result stays inside the representable range, and nothing
otherwise. -/
def checked_sub_signed (t : Timestamp) (d : Int) : Option Timestamp :=
  if chronoMinTimestamp ≤ t - d ∧ t - d ≤ chronoMaxTimestamp
  then some (t - d) else none

/-- Modelled from the spec: the trace context of the protocol module (not
among the provided sources) - correlation identifiers (trace id, span id) and
an operation name. -/
structure TraceContext where
  trace_id : Annotated String
  span_id : Annotated String
  op : Annotated String
deriving DecidableEq, Repr

/-- Modelled from the spec: a context entry is either the trace-context
variant or some other context variant. -/
inductive Context where
  | trace (tc : TraceContext)
  | otherContext
deriving DecidableEq, Repr

/-- Modelled from the spec: ContextInner wraps a Context (the Rust newtype
ContextInner(Context)). -/
structure ContextInner where
  ctx : Context
deriving DecidableEq, Repr

/-- Modelled from the spec: the contexts mapping of an event, from string key
to annotated context, modelled as an association list with unique keys. -/
abbrev Contexts := List (String × Annotated ContextInner)

/-- Modelled from the spec: the event type tag; the validator only
distinguishes the "transaction" type from everything else. -/
inductive EventType where
  | transaction
  | errorEvent
  | defaultEvent
deriving DecidableEq, Repr

/-- Modelled from the spec: the fields of a span that the transaction
validator reads or writes (protocol module not among the provided sources). -/
structure Span where
  start_timestamp : Annotated Timestamp
  timestamp : Annotated Timestamp
  trace_id : Annotated String
  span_id : Annotated String
  op : Annotated String
deriving DecidableEq, Repr

/-- Modelled from the spec: the fields of an event that the transaction
validator reads or writes (protocol module not among the provided sources). -/
structure Event where
  ty : Annotated EventType
  transaction : Annotated String
  start_timestamp : Annotated Timestamp
  timestamp : Annotated Timestamp
  contexts : Annotated Contexts
  spans : Annotated (List (Annotated Span))
deriving DecidableEq, Repr

/-- The fatal processing error of the validator: ProcessingAction's
InvalidTransaction variant carrying a reason string. -/
inductive ProcessingAction where
  | invalidTransaction (reason : String)
deriving DecidableEq, Repr

/-- The TransactionsProcessor state (transactions.rs lines 7-15): the
client-claimed send time (none defaults to the event end timestamp), the
clock drift once computed, and the server receipt time fixed at construction. -/
structure TransactionsProcessor where
  sent_at : Option Timestamp
  client_clock_drift : Option Int
  now : Timestamp
deriving DecidableEq, Repr

/-- Annotated::get_or_insert_with, specialised to a constant: set the value if
absent, keeping the Meta; a present value is untouched. -/
def Annotated.get_or_insert (a : Annotated α) (v : α) : Annotated α :=
  match a.1 with
  | none => (some v, a.2)
  | some _ => a

/-- BTreeMap::get on the contexts mapping: the annotated entry of the first
matching key. -/
def contexts_get (cs : Contexts) (k : String) : Option (Annotated ContextInner) :=
  match cs with
  | [] => none
  | c :: rest => if c.1 = k then some c.2 else contexts_get rest k

/-- Write-back of the in-place mutation through BTreeMap::get_mut: replace the
entry of the first matching key. -/
def contexts_set (cs : Contexts) (k : String) (v : Annotated ContextInner) : Contexts :=
  match cs with
  | [] => []
  | c :: rest => if c.1 = k then (c.1, v) :: rest else c :: contexts_set rest k v

/-- process_timestamp (transactions.rs lines 173-186): reads the stored clock
drift (a missing drift is the expect panic, modelled as none) and replaces the
timestamp by its checked subtraction, falling back to the unmodified timestamp
when the subtraction leaves the representable range. -/
def process_timestamp (p : TransactionsProcessor) (t : Timestamp) :
    Option (TransactionsProcessor × Timestamp) :=
  match p.client_clock_drift with
  | none => none
  | some drift => some (p, (checked_sub_signed t drift).getD t)

/-- Modelled from the spec: the generic walk applied to one annotated
timestamp field - the process_timestamp hook runs on a present value, and an
absent value is left alone. -/
def walk_timestamp (p : TransactionsProcessor) (a : Annotated Timestamp) :
    Option (TransactionsProcessor × Annotated Timestamp) :=
  match a.1 with
  | none => some (p, a)
  | some t => (process_timestamp p t).map (fun r => (r.1, (some r.2, a.2)))

/-- process_span (transactions.rs lines 126-171): both span timestamps must be
present and ordered, trace_id and span_id must be present, a missing operation
name defaults to "default", and then the span's child walk corrects the two
timestamps. -/
def process_span (p : TransactionsProcessor) (span : Span) :
    Option (Except ProcessingAction Unit × TransactionsProcessor × Span) :=
  match span.start_timestamp.1, span.timestamp.1 with
  | some startTs, some endTs =>
    if endTs < startTs then
      some (Except.error (ProcessingAction.invalidTransaction
        "end timestamp in span is smaller than start timestamp"), p, span)
    else if span.trace_id.1.isNone then
      some (Except.error (ProcessingAction.invalidTransaction
        "span is missing trace_id"), p, span)
    else if span.span_id.1.isNone then
      some (Except.error (ProcessingAction.invalidTransaction
        "span is missing span_id"), p, span)
    else
      let span1 := { span with op := span.op.get_or_insert "default" }
      match walk_timestamp p span1.start_timestamp with
      | none => none
      | some (p1, st) =>
        match walk_timestamp p1 span1.timestamp with
        | none => none
        | some (p2, ts) =>
          some (Except.ok (), p2, { span1 with start_timestamp := st, timestamp := ts })
  | _, none =>
    some (Except.error (ProcessingAction.invalidTransaction
      "span is missing timestamp"), p, span)
  | none, _ =>
    some (Except.error (ProcessingAction.invalidTransaction
      "span is missing start_timestamp"), p, span)

/-- Modelled from the spec: the generic walk over the span list - each present
span runs the process_span hook (mutating the span in place), and descent
stops at the first rejection, later spans staying untouched. -/
def walk_spans : TransactionsProcessor → List (Annotated Span) →
    Option (Except ProcessingAction Unit × TransactionsProcessor × List (Annotated Span))
  | p, [] => some (Except.ok (), p, [])
  | p, a :: rest =>
    match a.1 with
    | none => (walk_spans p rest).map (fun r => (r.1, r.2.1, a :: r.2.2))
    | some sp =>
      match process_span p sp with
      | none => none
      | some (Except.error pa, p1, sp1) =>
        some (Except.error pa, p1, ((some sp1, a.2) : Annotated Span) :: rest)
      | some (Except.ok (), p1, sp1) =>
        match walk_spans p1 rest with
        | none => none
        | some (r, p2, rest1) =>
          some (r, p2, ((some sp1, a.2) : Annotated Span) :: rest1)

/-- Modelled from the spec: Event::process_child_values - the derived child
walk reaches the event's two timestamp fields through the process_timestamp
hook and each span through the process_span hook (the trace context holds no
timestamps), mutating the event in place. -/
def process_child_values (p : TransactionsProcessor) (e : Event) :
    Option (Except ProcessingAction Unit × TransactionsProcessor × Event) :=
  match walk_timestamp p e.timestamp with
  | none => none
  | some (p1, ts) =>
    match walk_timestamp p1 e.start_timestamp with
    | none => none
    | some (p2, st) =>
      let e1 := { e with timestamp := ts, start_timestamp := st }
      match e1.spans.1 with
      | none => some (Except.ok (), p2, e1)
      | some spans =>
        match walk_spans p2 spans with
        | none => none
        | some (r, p3, spans1) =>
          some (r, p3, { e1 with spans := (some spans1, e1.spans.2) })

/-- The transaction-name defaulting step (transactions.rs lines 43-47): an
absent or empty transaction name is overwritten with the placeholder. -/
def default_transaction_name (e : Event) : Event :=
  if (e.transaction.1.map (fun s => s.isEmpty)).getD true then
    { e with transaction := (some "<unlabeled transaction>", e.transaction.2) }
  else e

/-- process_event (transactions.rs lines 28-124). Mirrors the source mutation
order: non-transaction events pass through untouched; the transaction name is
defaulted; both timestamps must be present and ordered, and the clock drift is
stored as sent_at minus now (sent_at defaulting to the end timestamp); a
non-null trace context of the trace variant with trace_id and span_id is
required, its missing operation name defaulting in place; every present span
slot must be non-null; finally the child walk runs. Errors return the event as
mutated so far; none models a panic inside the walk. -/
def process_event (p : TransactionsProcessor) (e : Event) :
    Option (Except ProcessingAction Unit × TransactionsProcessor × Event) :=
  if e.ty.1 ≠ some EventType.transaction then some (Except.ok (), p, e)
  else
    let e1 := default_transaction_name e
    match e1.start_timestamp.1, e1.timestamp.1 with
    | some startTs, some endTs =>
      if endTs < startTs then
        some (Except.error (ProcessingAction.invalidTransaction
          "end timestamp is smaller than start timestamp"), p, e1)
      else
        let sentAt := p.sent_at.getD endTs
        let p1 := { p with client_clock_drift := some (sentAt - p.now) }
        match e1.contexts.1 with
        | none =>
          some (Except.error (ProcessingAction.invalidTransaction
            "trace context hard-required for transaction events"), p1, e1)
        | some contexts =>
          match contexts_get contexts "trace" with
          | none =>
            some (Except.error (ProcessingAction.invalidTransaction
              "trace context hard-required for transaction events"), p1, e1)
          | some ann =>
            match ann.1 with
            | none =>
              some (Except.error (ProcessingAction.invalidTransaction
                "trace context hard-required for transaction events"), p1, e1)
            | some inner =>
              match inner.ctx with
              | Context.otherContext =>
                some (Except.error (ProcessingAction.invalidTransaction
                  "context at event.contexts.trace must be of type trace."), p1, e1)
              | Context.trace tc =>
                if tc.trace_id.1.isNone then
                  some (Except.error (ProcessingAction.invalidTransaction
                    "trace context is missing trace_id"), p1, e1)
                else if tc.span_id.1.isNone then
                  some (Except.error (ProcessingAction.invalidTransaction
                    "trace context is missing span_id"), p1, e1)
                else
                  let tc1 := { tc with op := tc.op.get_or_insert "default" }
                  let e2 := { e1 with contexts :=
                    (some (contexts_set contexts "trace"
                      (some ⟨Context.trace tc1⟩, ann.2)), e1.contexts.2) }
                  if (e2.spans.1.map (fun l => l.any (fun s => s.1.isNone))).getD false then
                    some (Except.error (ProcessingAction.invalidTransaction
                      "spans must be valid in transaction event"), p1, e2)
                  else
                    process_child_values p1 e2
    | _, none =>
      some (Except.error (ProcessingAction.invalidTransaction
        "timestamp hard-required for transaction events"), p, e1)
    | none, _ =>
      some (Except.error (ProcessingAction.invalidTransaction
        "start_timestamp hard-required for transaction events"), p, e1)

/-- The timestamp correction applied by process_timestamp once the drift is
known: the checked subtraction of the drift, defaulting to the unmodified
timestamp when the result would leave the representable range. -/
def apply_clock_drift (d : Int) (t : Timestamp) : Timestamp :=
  (checked_sub_signed t d).getD t

/-- The net effect of a successful process_span with drift d on a span: the
operation name is defaulted and both timestamps have the drift applied. -/
def span_after (d : Int) (sp : Span) : Span :=
  { sp with
    op := sp.op.get_or_insert "default"
    start_timestamp := (sp.start_timestamp.1.map (apply_clock_drift d), sp.start_timestamp.2)
    timestamp := (sp.timestamp.1.map (apply_clock_drift d), sp.timestamp.2) }

/-- The net effect of a successful span-list walk with drift d: each present
span is rewritten by span_after, absent slots stay. -/
def spans_after (d : Int) (l : List (Annotated Span)) : List (Annotated Span) :=
  l.map (fun a => (a.1.map (span_after d), a.2))

/-- The net effect of a successful child walk with drift d on an event: both
event timestamps have the drift applied, and every present span is rewritten
by span_after. -/
def event_after (d : Int) (e : Event) : Event :=
  { e with
    start_timestamp := (e.start_timestamp.1.map (apply_clock_drift d), e.start_timestamp.2)
    timestamp := (e.timestamp.1.map (apply_clock_drift d), e.timestamp.2)
    spans := (e.spans.1.map (spans_after d), e.spans.2) }

/-- The reason strings a transaction event can be rejected with after the
timestamp presence and ordering check has passed. -/
def late_messages : List String :=
  [ "trace context hard-required for transaction events"
  , "context at event.contexts.trace must be of type trace."
  , "trace context is missing trace_id"
  , "trace context is missing span_id"
  , "spans must be valid in transaction event"
  , "end timestamp in span is smaller than start timestamp"
  , "span is missing timestamp"
  , "span is missing start_timestamp"
  , "span is missing trace_id"
  , "span is missing span_id" ]

/-- Decidable in-range condition on a value: when it is a numeric epoch, the
second count that the DateTime conversion derives from it lies in chrono's
representable range. -/
def numeric_epoch_in_range : Option Value → Bool
  | some (Value.u64 n) =>
    decide (chronoMinTimestamp ≤ u64_as_i64 n) && decide (u64_as_i64 n ≤ chronoMaxTimestamp)
  | some (Value.i64 i) =>
    decide (chronoMinTimestamp ≤ i) && decide (i ≤ chronoMaxTimestamp)
  | some (Value.f64 q) =>
    decide (chronoMinTimestamp ≤ f64_as_i64 q) && decide (f64_as_i64 q ≤ chronoMaxTimestamp)
  | _ => true

/-- A stand-in for the external ISO-8601 parser in concrete evaluations: every
string is reported unparsable. -/
def reject_all_strings : String → Except String DateTime :=
  fun _ => Except.error "invalid date"

/-- Shorthand for a present annotated value with empty Meta (Annotated::new). -/
def ann (x : α) : Annotated α := (some x, Meta.empty)

/-- Shorthand for an absent annotated value with empty Meta (Annotated::empty). -/
def annEmpty : Annotated α := (none, Meta.empty)

/-- A fully valid trace context fixture. -/
def fixtureTraceContext : TraceContext :=
  { trace_id := ann "4c79f60c11214eb38604f4ae0781bfb2"
  , span_id := ann "fa90fdead5f74053"
  , op := ann "http.server" }

/-- A trace context fixture with no operation name. -/
def fixtureTraceContextNoOp : TraceContext :=
  { trace_id := ann "4c79f60c11214eb38604f4ae0781bfb2"
  , span_id := ann "fa90fdead5f74053"
  , op := annEmpty }

/-- A fully valid span fixture. -/
def fixtureSpan : Span :=
  { start_timestamp := ann 946684800
  , timestamp := ann 946684810
  , trace_id := ann "4c79f60c11214eb38604f4ae0781bfb2"
  , span_id := ann "fa90fdead5f74053"
  , op := ann "db.statement" }

/-- A fully valid transaction event fixture with one span. -/
def fixtureEvent : Event :=
  { ty := ann EventType.transaction
  , transaction := ann "/"
  , start_timestamp := ann 946684800
  , timestamp := ann 946684810
  , contexts := ann [("trace", ann ⟨Context.trace fixtureTraceContext⟩)]
  , spans := ann [ann fixtureSpan] }

/-- A processor fixture five ticks behind the fixture event's end timestamp,
so that the computed drift is five. -/
def fixtureProcessor : TransactionsProcessor :=
  { sent_at := none, client_clock_drift := none, now := 946684805 }

/-- A transaction event with an empty transaction name, ordered timestamps, a
valid trace context lacking only its operation name, and a null entry in its
span list. -/
def fixtureNullSpanEvent : Event :=
  { ty := ann EventType.transaction
  , transaction := ann ""
  , start_timestamp := ann 946684800
  , timestamp := ann 946684810
  , contexts := ann [("trace", ann ⟨Context.trace fixtureTraceContextNoOp⟩)]
  , spans := ann [annEmpty] }

/-- A transaction event with both timestamps absent. -/
def fixtureNoTimestampsEvent : Event :=
  { ty := ann EventType.transaction
  , transaction := ann "/"
  , start_timestamp := annEmpty
  , timestamp := annEmpty
  , contexts := annEmpty
  , spans := annEmpty }

/-- A transaction event whose end timestamp precedes its start timestamp. -/
def fixtureInvertedEvent : Event :=
  { ty := ann EventType.transaction
  , transaction := ann "/"
  , start_timestamp := ann 946684810
  , timestamp := ann 946684800
  , contexts := annEmpty
  , spans := annEmpty }

/-- An event with no declared type. -/
def fixtureUntypedEvent : Event :=
  { ty := annEmpty
  , transaction := ann "/"
  , start_timestamp := annEmpty
  , timestamp := annEmpty
  , contexts := annEmpty
  , spans := annEmpty }

/-- The operation name stored on an event's trace context, when the event has
one. -/
def trace_op_value (e : Event) : Option String :=
  match e.contexts.1 with
  | some cs =>
    match contexts_get cs "trace" with
    | some (some inner, _) =>
      match inner.ctx with
      | Context.trace tc => tc.op.1
      | Context.otherContext => none
    | _ => none
  | none => none

/-- Mismatch arm of FromValue for String: a present value that is neither a
string nor null yields an absent value and appends the expectation error. -/
lemma String_from_value_mismatch (v : Value) (m : Meta)
    (hs : ∀ s, v ≠ Value.str s) (hn : v ≠ Value.null) :
    String.from_value (some v, m) = (none, m.add_error "expected a string") := by
  cases v <;> first
    | rfl
    | exact absurd rfl hn
    | exact absurd rfl (hs _)

/-- Mismatch arm of FromValue for bool. -/
lemma Bool_from_value_mismatch (v : Value) (m : Meta)
    (hb : ∀ b, v ≠ Value.bool b) (hn : v ≠ Value.null) :
    Bool.from_value (some v, m) = (none, m.add_error "expected a boolean") := by
  cases v <;> first
    | rfl
    | exact absurd rfl hn
    | exact absurd rfl (hb _)

/-- Projection fact: defaulting the transaction name leaves the event type
unchanged. -/
lemma default_transaction_name_ty (e : Event) :
    (default_transaction_name e).ty = e.ty := by
  unfold default_transaction_name; split <;> rfl

/-- Projection fact: defaulting the transaction name leaves the start
timestamp unchanged. -/
lemma default_transaction_name_start (e : Event) :
    (default_transaction_name e).start_timestamp = e.start_timestamp := by
  unfold default_transaction_name; split <;> rfl

/-- Projection fact: defaulting the transaction name leaves the end timestamp
unchanged. -/
lemma default_transaction_name_end (e : Event) :
    (default_transaction_name e).timestamp = e.timestamp := by
  unfold default_transaction_name; split <;> rfl

/-- Projection fact: defaulting the transaction name leaves the contexts
unchanged. -/
lemma default_transaction_name_contexts (e : Event) :
    (default_transaction_name e).contexts = e.contexts := by
  unfold default_transaction_name; split <;> rfl

/-- Projection fact: defaulting the transaction name leaves the spans
unchanged. -/
lemma default_transaction_name_spans (e : Event) :
    (default_transaction_name e).spans = e.spans := by
  unfold default_transaction_name; split <;> rfl

/-- Any outcome of process_span is success or an invalid-transaction error
whose reason is one of the late (post timestamp check) messages. -/
lemma process_span_message (p : TransactionsProcessor) (sp : Span)
    (r : Except ProcessingAction Unit)
    (p1 : TransactionsProcessor) (sp1 : Span)
    (h : process_span p sp = some (r, p1, sp1)) :
    r = Except.ok () ∨ ∃ msg, r = Except.error (ProcessingAction.invalidTransaction msg)
      ∧ msg ∈ late_messages := by
  unfold process_span at h
  split at h
  · split at h
    · simp only [Option.some.injEq, Prod.mk.injEq] at h
      obtain ⟨hr, -⟩ := h
      subst hr
      exact Or.inr ⟨_, rfl, by decide⟩
    · split at h
      · simp only [Option.some.injEq, Prod.mk.injEq] at h
        obtain ⟨hr, -⟩ := h
        subst hr
        exact Or.inr ⟨_, rfl, by decide⟩
      · split at h
        · simp only [Option.some.injEq, Prod.mk.injEq] at h
          obtain ⟨hr, -⟩ := h
          subst hr
          exact Or.inr ⟨_, rfl, by decide⟩
        · dsimp only at h
          rcases hw1 : walk_timestamp p sp.start_timestamp with _ | ⟨p2, st⟩ <;>
            rw [hw1] at h <;> (try dsimp only at h)
          · exact Option.noConfusion h
          · rcases hw2 : walk_timestamp p2 sp.timestamp with _ | ⟨p3, ts⟩ <;>
              rw [hw2] at h <;> (try dsimp only at h)
            · exact Option.noConfusion h
            · simp only [Option.some.injEq, Prod.mk.injEq] at h
              obtain ⟨hr, -⟩ := h
              subst hr
              exact Or.inl rfl
  · simp only [Option.some.injEq, Prod.mk.injEq] at h
    obtain ⟨hr, -⟩ := h
    subst hr
    exact Or.inr ⟨_, rfl, by decide⟩
  · simp only [Option.some.injEq, Prod.mk.injEq] at h
    obtain ⟨hr, -⟩ := h
    subst hr
    exact Or.inr ⟨_, rfl, by decide⟩

/-- Any outcome of the span-list walk is success or an invalid-transaction
error with one of the late messages. -/
lemma walk_spans_message (l : List (Annotated Span)) :
    ∀ (p : TransactionsProcessor) (r : Except ProcessingAction Unit)
      (p1 : TransactionsProcessor) (l1 : List (Annotated Span)),
    walk_spans p l = some (r, p1, l1) →
    r = Except.ok () ∨ ∃ msg, r = Except.error (ProcessingAction.invalidTransaction msg)
      ∧ msg ∈ late_messages := by
  induction l with
  | nil =>
    intro p r p1 l1 h
    simp only [walk_spans, Option.some.injEq, Prod.mk.injEq] at h
    obtain ⟨hr, -⟩ := h
    subst hr
    exact Or.inl rfl
  | cons a rest ih =>
    intro p r p1 l1 h
    unfold walk_spans at h
    split at h
    · rcases hr : walk_spans p rest with _ | ⟨r2, p2, rest2⟩ <;> rw [hr] at h <;>
        (try dsimp only [Option.map] at h)
      · exact Option.noConfusion h
      · simp only [Option.some.injEq, Prod.mk.injEq] at h
        obtain ⟨hr1, -⟩ := h
        subst hr1
        exact ih p r2 p2 rest2 hr
    · rename_i sp hsp
      rcases hps : process_span p sp with _ | ⟨r2, p2, sp2⟩ <;> rw [hps] at h <;>
        (try dsimp only at h)
      · exact Option.noConfusion h
      · match r2, hps with
        | Except.error pa, hps =>
          dsimp only at h
          simp only [Option.some.injEq, Prod.mk.injEq] at h
          obtain ⟨hr1, -⟩ := h
          subst hr1
          exact process_span_message _ _ _ _ _ hps
        | Except.ok (), hps =>
          dsimp only at h
          rcases hw : walk_spans p2 rest with _ | ⟨r3, p3, rest3⟩ <;> rw [hw] at h <;>
            (try dsimp only at h)
          · exact Option.noConfusion h
          · simp only [Option.some.injEq, Prod.mk.injEq] at h
            obtain ⟨hr1, -⟩ := h
            subst hr1
            exact ih _ _ _ _ hw

/-- Any outcome of the event child walk is success or an invalid-transaction
error with one of the late messages. -/
lemma process_child_values_message (p : TransactionsProcessor) (e : Event)
    (r : Except ProcessingAction Unit) (p1 : TransactionsProcessor) (e1 : Event)
    (h : process_child_values p e = some (r, p1, e1)) :
    r = Except.ok () ∨ ∃ msg, r = Except.error (ProcessingAction.invalidTransaction msg)
      ∧ msg ∈ late_messages := by
  unfold process_child_values at h
  rcases hw1 : walk_timestamp p e.timestamp with _ | ⟨q1, ts⟩ <;> rw [hw1] at h <;>
    (try dsimp only at h)
  · exact Option.noConfusion h
  · rcases hw2 : walk_timestamp q1 e.start_timestamp with _ | ⟨q2, st⟩ <;> rw [hw2] at h <;>
      (try dsimp only at h)
    · exact Option.noConfusion h
    · split at h
      · simp only [Option.some.injEq, Prod.mk.injEq] at h
        obtain ⟨hr, -⟩ := h
        subst hr
        exact Or.inl rfl
      · rename_i spans hspans
        rcases hw : walk_spans q2 spans with _ | ⟨r3, p3, spans3⟩ <;> rw [hw] at h <;>
          (try dsimp only at h)
        · exact Option.noConfusion h
        · simp only [Option.some.injEq, Prod.mk.injEq] at h
          obtain ⟨hr, -⟩ := h
          subst hr
          exact walk_spans_message _ _ _ _ _ hw

/-- Once the timestamp presence and ordering check passes, any rejection of
process_event carries one of the late messages. -/
lemma process_event_late_message (p : TransactionsProcessor) (e : Event)
    (hty : e.ty.1 = some EventType.transaction)
    (startTs endTs : Timestamp)
    (hs : e.start_timestamp.1 = some startTs) (he : e.timestamp.1 = some endTs)
    (hord : ¬ endTs < startTs)
    (r : Except ProcessingAction Unit) (pr : TransactionsProcessor) (er : Event)
    (h : process_event p e = some (r, pr, er)) :
    r = Except.ok () ∨ ∃ msg, r = Except.error (ProcessingAction.invalidTransaction msg)
      ∧ msg ∈ late_messages := by
  unfold process_event at h
  rw [if_neg (by simp [hty])] at h
  try dsimp only at h
  rw [show (default_transaction_name e).start_timestamp.1 = some startTs by
        rw [default_transaction_name_start, hs],
      show (default_transaction_name e).timestamp.1 = some endTs by
        rw [default_transaction_name_end, he]] at h
  try dsimp only at h
  rw [if_neg hord] at h
  try dsimp only at h
  repeat' split at h
  all_goals first
    | (simp only [Option.some.injEq, Prod.mk.injEq] at h
       obtain ⟨hr, -⟩ := h
       subst hr
       exact Or.inr ⟨_, rfl, by decide⟩)
    | exact process_child_values_message _ _ _ _ _ h

/-- A transaction event without an end timestamp is rejected with the
end-timestamp message, whatever the start timestamp. -/
lemma process_event_end_absent (p : TransactionsProcessor) (e : Event)
    (hty : e.ty.1 = some EventType.transaction) (hend : e.timestamp.1 = none) :
    process_event p e = some (Except.error (ProcessingAction.invalidTransaction
      "timestamp hard-required for transaction events"), p, default_transaction_name e) := by
  unfold process_event
  rw [if_neg (by simp [hty])]
  try dsimp only
  rcases hstart : e.start_timestamp.1 with _ | s <;>
    rw [show (default_transaction_name e).start_timestamp.1 = e.start_timestamp.1 by
          rw [default_transaction_name_start],
        hstart,
        show (default_transaction_name e).timestamp.1 = none by
          rw [default_transaction_name_end, hend]]

/-- A transaction event with an end timestamp but no start timestamp is
rejected with the start-timestamp message. -/
lemma process_event_start_absent (p : TransactionsProcessor) (e : Event)
    (hty : e.ty.1 = some EventType.transaction) (endTs : Timestamp)
    (hend : e.timestamp.1 = some endTs) (hstart : e.start_timestamp.1 = none) :
    process_event p e = some (Except.error (ProcessingAction.invalidTransaction
      "start_timestamp hard-required for transaction events"), p, default_transaction_name e) := by
  unfold process_event
  rw [if_neg (by simp [hty])]
  try dsimp only
  rw [show (default_transaction_name e).start_timestamp.1 = none by
        rw [default_transaction_name_start, hstart],
      show (default_transaction_name e).timestamp.1 = some endTs by
        rw [default_transaction_name_end, hend]]

/-- A transaction event whose end timestamp precedes its start timestamp is
rejected with the ordering message. -/
lemma process_event_inverted (p : TransactionsProcessor) (e : Event)
    (hty : e.ty.1 = some EventType.transaction) (startTs endTs : Timestamp)
    (hstart : e.start_timestamp.1 = some startTs) (hend : e.timestamp.1 = some endTs)
    (hlt : endTs < startTs) :
    process_event p e = some (Except.error (ProcessingAction.invalidTransaction
      "end timestamp is smaller than start timestamp"), p, default_transaction_name e) := by
  unfold process_event
  rw [if_neg (by simp [hty])]
  try dsimp only
  rw [show (default_transaction_name e).start_timestamp.1 = some startTs by
        rw [default_transaction_name_start, hstart],
      show (default_transaction_name e).timestamp.1 = some endTs by
        rw [default_transaction_name_end, hend]]
  try dsimp only
  rw [if_pos hlt]

/-- When the drift is set, the walk over one annotated timestamp leaves the
state unchanged and applies the drift to a present value. -/
lemma walk_timestamp_drift (p : TransactionsProcessor) (d : Int)
    (hd : p.client_clock_drift = some d) (a : Annotated Timestamp) :
    walk_timestamp p a = some (p, (a.1.map (apply_clock_drift d), a.2)) := by
  rcases a with ⟨v, m⟩
  cases v with
  | none => rfl
  | some t =>
    unfold walk_timestamp process_timestamp
    rw [hd]
    rfl

/-- A successful process_span with the drift set leaves the state unchanged
and rewrites the span by span_after. -/
lemma process_span_ok_shape (p : TransactionsProcessor) (d : Int)
    (hd : p.client_clock_drift = some d) (sp : Span)
    (p1 : TransactionsProcessor) (sp1 : Span)
    (h : process_span p sp = some (Except.ok (), p1, sp1)) :
    p1 = p ∧ sp1 = span_after d sp := by
  unfold process_span at h
  split at h
  · split at h
    · simp at h
    · split at h
      · simp at h
      · split at h
        · simp at h
        · dsimp only at h
          rw [walk_timestamp_drift p d hd] at h
          dsimp only at h
          rw [walk_timestamp_drift p d hd] at h
          try dsimp only at h
          simp only [Option.some.injEq, Prod.mk.injEq] at h
          obtain ⟨-, hp, hsp⟩ := h
          exact ⟨hp.symm, hsp.symm⟩
  · simp at h
  · simp at h

/-- A successful span-list walk with the drift set leaves the state unchanged
and rewrites the list by spans_after. -/
lemma walk_spans_ok_shape (d : Int) (l : List (Annotated Span)) :
    ∀ (p : TransactionsProcessor), p.client_clock_drift = some d →
    ∀ (p1 : TransactionsProcessor) (l1 : List (Annotated Span)),
    walk_spans p l = some (Except.ok (), p1, l1) →
    p1 = p ∧ l1 = spans_after d l := by
  induction l with
  | nil =>
    intro p hd p1 l1 h
    simp only [walk_spans, Option.some.injEq, Prod.mk.injEq] at h
    obtain ⟨-, hp, hl⟩ := h
    exact ⟨hp.symm, hl.symm⟩
  | cons a rest ih =>
    intro p hd p1 l1 h
    rcases a with ⟨av, am⟩
    unfold walk_spans at h
    split at h
    · rename_i ha
      simp only at ha
      subst ha
      rcases hr : walk_spans p rest with _ | ⟨r2, p2, rest2⟩ <;> rw [hr] at h <;>
        (try dsimp only [Option.map] at h)
      · exact Option.noConfusion h
      · simp only [Option.some.injEq, Prod.mk.injEq] at h
        obtain ⟨hr2, hp2, hl1⟩ := h
        subst hr2
        obtain ⟨hp, hrest⟩ := ih p hd p2 rest2 hr
        subst hp2 hl1 hrest
        exact ⟨hp, rfl⟩
    · rename_i sp hsp
      simp only at hsp
      subst hsp
      rcases hps : process_span p sp with _ | ⟨r2, p2, sp2⟩ <;> rw [hps] at h <;>
        (try dsimp only at h)
      · exact Option.noConfusion h
      · cases r2 with
        | error pa => simp at h
        | ok u =>
          cases u
          dsimp only at h
          obtain ⟨hp2, hsp2⟩ := process_span_ok_shape p d hd sp p2 sp2 hps
          subst hsp2
          rw [hp2] at h
          rcases hw : walk_spans p rest with _ | ⟨r3, p3, rest3⟩ <;> rw [hw] at h <;>
            (try dsimp only at h)
          · exact Option.noConfusion h
          · simp only [Option.some.injEq, Prod.mk.injEq] at h
            obtain ⟨hr3, hp3, hl1⟩ := h
            subst hr3
            obtain ⟨hp, hrest⟩ := ih p hd p3 rest3 hw
            subst hp3 hl1 hrest
            exact ⟨hp, rfl⟩

/-- A successful event child walk with the drift set leaves the state
unchanged and rewrites the event by event_after. -/
lemma process_child_values_ok_shape (p : TransactionsProcessor) (d : Int)
    (hd : p.client_clock_drift = some d) (e : Event)
    (p1 : TransactionsProcessor) (e1 : Event)
    (h : process_child_values p e = some (Except.ok (), p1, e1)) :
    p1 = p ∧ e1 = event_after d e := by
  unfold process_child_values at h
  rw [walk_timestamp_drift p d hd] at h
  dsimp only at h
  rw [walk_timestamp_drift p d hd] at h
  dsimp only at h
  split at h
  · rename_i hspans
    simp only [Option.some.injEq, Prod.mk.injEq] at h
    obtain ⟨-, hp, he⟩ := h
    refine ⟨hp.symm, ?_⟩
    rw [← he]
    unfold event_after
    rcases e with ⟨ty, tr, st, ts, cx, sps⟩
    rcases sps with ⟨spsv, spsm⟩
    simp only at hspans
    subst hspans
    rfl
  · rename_i spans hspans
    rcases hw : walk_spans p spans with _ | ⟨r3, p3, spans3⟩ <;> rw [hw] at h <;>
      (try dsimp only at h)
    · exact Option.noConfusion h
    · simp only [Option.some.injEq, Prod.mk.injEq] at h
      obtain ⟨hr3, hp3, he1⟩ := h
      subst hr3
      obtain ⟨hp, hspans3⟩ := walk_spans_ok_shape d spans p hd p3 spans3 hw
      subst hp3 hspans3
      refine ⟨hp, ?_⟩
      rw [← he1]
      unfold event_after
      rcases e with ⟨ty, tr, st, ts, cx, sps⟩
      rcases sps with ⟨spsv, spsm⟩
      simp only at hspans
      subst hspans
      rfl

/-- C1: for a transaction event that passes all event-level checks, the drift
is computed exactly once as sent_at minus now - sent_at being the explicitly
supplied client send time when one was given to the constructor and otherwise
the event's end timestamp, now being fixed in the validator state - and every
timestamp reached during the child walk (event end timestamp, start
timestamp, and both timestamps of every present span) is replaced by
timestamp minus drift, a timestamp whose subtraction would leave the
representable range staying unchanged instead. -/
theorem c1_clock_drift_correction (p : TransactionsProcessor) (e : Event)
    (hty : e.ty.1 = some EventType.transaction)
    (startTs endTs : Timestamp)
    (hstart : e.start_timestamp.1 = some startTs) (hend : e.timestamp.1 = some endTs)
    (p1 : TransactionsProcessor) (e1 : Event)
    (hok : process_event p e = some (Except.ok (), p1, e1)) :
    p1.client_clock_drift = some (p.sent_at.getD endTs - p.now)
    ∧ p1.now = p.now
    ∧ p1.sent_at = p.sent_at
    ∧ e1.timestamp.1 = some (apply_clock_drift (p.sent_at.getD endTs - p.now) endTs)
    ∧ e1.start_timestamp.1 = some (apply_clock_drift (p.sent_at.getD endTs - p.now) startTs)
    ∧ e1.spans.1 = e.spans.1.map (spans_after (p.sent_at.getD endTs - p.now)) := by
  unfold process_event at hok
  rw [if_neg (by simp [hty])] at hok
  try dsimp only at hok
  rw [show (default_transaction_name e).start_timestamp.1 = some startTs by
        rw [default_transaction_name_start, hstart],
      show (default_transaction_name e).timestamp.1 = some endTs by
        rw [default_transaction_name_end, hend]] at hok
  try dsimp only at hok
  split at hok
  · simp at hok
  · try dsimp only at hok
    repeat' split at hok
    all_goals first
      | (simp only [Option.some.injEq, Prod.mk.injEq, reduceCtorEq, false_and] at hok)
      | (obtain ⟨hp1, he1⟩ := process_child_values_ok_shape _ _ rfl _ _ _ hok
         subst hp1 he1
         refine ⟨rfl, rfl, rfl, ?_, ?_, ?_⟩ <;>
           simp [event_after, default_transaction_name_end, default_transaction_name_start,
             default_transaction_name_spans, hend, hstart])

/-- Witness for C1 at the concrete fixture: a valid transaction event with one
span, processed with no explicit send time and a receipt clock five ticks
behind the end timestamp, shifts every timestamp back by the drift of five. -/
theorem c1_clock_drift_correction_witness :
    ∃ p1 e1, process_event fixtureProcessor fixtureEvent = some (Except.ok (), p1, e1)
      ∧ p1.client_clock_drift = some 5
      ∧ p1.now = fixtureProcessor.now
      ∧ e1.timestamp.1 = some 946684805
      ∧ e1.start_timestamp.1 = some 946684795
      ∧ e1.spans.1 = fixtureEvent.spans.1.map (spans_after 5) := by
  obtain ⟨p1, e1, hok⟩ : ∃ p1 e1, process_event fixtureProcessor fixtureEvent
      = some (Except.ok (), p1, e1) := ⟨_, _, rfl⟩
  have hc := c1_clock_drift_correction fixtureProcessor fixtureEvent rfl
    946684800 946684810 rfl rfl p1 e1 hok
  exact ⟨p1, e1, hok, hc.1, hc.2.1, hc.2.2.2.1, hc.2.2.2.2.1, hc.2.2.2.2.2⟩

/-- C2: a transaction event is rejected when the end timestamp is absent, when
the start timestamp is absent, or when both are present with the end before
the start - in which case the reason reads "end timestamp is smaller than
start timestamp"; when both are present and ordered, this check passes (no
rejection with any of the three timestamp messages can occur). -/
theorem c2_timestamp_presence_and_ordering (p : TransactionsProcessor) (e : Event)
    (hty : e.ty.1 = some EventType.transaction) :
    (e.timestamp.1 = none → ∃ msg e1, process_event p e =
        some (Except.error (ProcessingAction.invalidTransaction msg), p, e1))
    ∧ (∀ endTs, e.timestamp.1 = some endTs → e.start_timestamp.1 = none →
        ∃ msg e1, process_event p e =
          some (Except.error (ProcessingAction.invalidTransaction msg), p, e1))
    ∧ (∀ startTs endTs, e.start_timestamp.1 = some startTs → e.timestamp.1 = some endTs →
        endTs < startTs →
        ∃ e1, process_event p e =
          some (Except.error (ProcessingAction.invalidTransaction
            "end timestamp is smaller than start timestamp"), p, e1))
    ∧ (∀ startTs endTs, e.start_timestamp.1 = some startTs → e.timestamp.1 = some endTs →
        startTs ≤ endTs →
        ∀ r pr er, process_event p e = some (r, pr, er) →
          r ≠ Except.error (ProcessingAction.invalidTransaction
            "timestamp hard-required for transaction events")
          ∧ r ≠ Except.error (ProcessingAction.invalidTransaction
            "start_timestamp hard-required for transaction events")
          ∧ r ≠ Except.error (ProcessingAction.invalidTransaction
            "end timestamp is smaller than start timestamp")) := by
  refine ⟨fun hend => ⟨_, _, process_event_end_absent p e hty hend⟩,
    fun endTs hend hstart => ⟨_, _, process_event_start_absent p e hty endTs hend hstart⟩,
    fun startTs endTs hstart hend hlt =>
      ⟨_, process_event_inverted p e hty startTs endTs hstart hend hlt⟩,
    fun startTs endTs hstart hend hle r pr er h => ?_⟩
  have hord : ¬ endTs < startTs := not_lt.mpr hle
  rcases process_event_late_message p e hty startTs endTs hstart hend hord r pr er h with
    hok | ⟨msg, hmsg, hmem⟩
  · subst hok
    exact ⟨by simp, by simp, by simp⟩
  · subst hmsg
    refine ⟨?_, ?_, ?_⟩ <;>
      · intro hc
        simp only [Except.error.injEq, ProcessingAction.invalidTransaction.injEq] at hc
        subst hc
        revert hmem
        decide

/-- Witness for C2 at a concrete transaction event whose end timestamp
precedes its start timestamp. -/
theorem c2_timestamp_presence_and_ordering_witness :
    fixtureInvertedEvent.ty.1 = some EventType.transaction
    ∧ fixtureInvertedEvent.start_timestamp.1 = some 946684810
    ∧ fixtureInvertedEvent.timestamp.1 = some 946684800
    ∧ ∃ e1, process_event fixtureProcessor fixtureInvertedEvent =
        some (Except.error (ProcessingAction.invalidTransaction
          "end timestamp is smaller than start timestamp"), fixtureProcessor, e1) :=
  ⟨rfl, rfl, rfl,
    (c2_timestamp_presence_and_ordering fixtureProcessor fixtureInvertedEvent rfl).2.2.1
      946684810 946684800 rfl rfl (by decide)⟩

/-- C9: a transaction event with no end timestamp is rejected with reason
"timestamp hard-required for transaction events" regardless of whether the
start timestamp is also absent, and the start-timestamp message occurs only
when the end timestamp is present and the start timestamp is absent. -/
theorem c9_rejection_message_priority (p : TransactionsProcessor) (e : Event)
    (hty : e.ty.1 = some EventType.transaction) :
    (e.timestamp.1 = none →
      process_event p e = some (Except.error (ProcessingAction.invalidTransaction
        "timestamp hard-required for transaction events"), p, default_transaction_name e))
    ∧ (∀ r pr er, process_event p e = some (r, pr, er) →
        r = Except.error (ProcessingAction.invalidTransaction
          "start_timestamp hard-required for transaction events") →
        e.start_timestamp.1 = none ∧ e.timestamp.1 ≠ none) := by
  refine ⟨fun hend => process_event_end_absent p e hty hend, fun r pr er h hr => ?_⟩
  subst hr
  rcases hend : e.timestamp.1 with _ | endTs
  · rw [process_event_end_absent p e hty hend] at h
    simp only [Option.some.injEq, Prod.mk.injEq, Except.error.injEq,
      ProcessingAction.invalidTransaction.injEq] at h
    exact absurd h.1.symm (by decide)
  · rcases hstart : e.start_timestamp.1 with _ | startTs
    · exact ⟨rfl, by simp [hend]⟩
    · by_cases hlt : endTs < startTs
      · rw [process_event_inverted p e hty startTs endTs hstart hend hlt] at h
        simp only [Option.some.injEq, Prod.mk.injEq, Except.error.injEq,
          ProcessingAction.invalidTransaction.injEq] at h
        exact absurd h.1.symm (by decide)
      · rcases process_event_late_message p e hty startTs endTs hstart hend hlt
          _ pr er h with hok | ⟨msg, hmsg, hmem⟩
        · exact absurd hok (by simp)
        · simp only [Except.error.injEq, ProcessingAction.invalidTransaction.injEq] at hmsg
          subst hmsg
          exact absurd hmem (by decide)

/-- Witness for C9 at a concrete transaction event with both timestamps
absent: the end-timestamp message wins. -/
theorem c9_rejection_message_priority_witness :
    fixtureNoTimestampsEvent.ty.1 = some EventType.transaction
    ∧ fixtureNoTimestampsEvent.timestamp.1 = none
    ∧ fixtureNoTimestampsEvent.start_timestamp.1 = none
    ∧ process_event fixtureProcessor fixtureNoTimestampsEvent =
        some (Except.error (ProcessingAction.invalidTransaction
          "timestamp hard-required for transaction events"), fixtureProcessor,
          default_transaction_name fixtureNoTimestampsEvent) :=
  ⟨rfl, rfl, rfl,
    (c9_rejection_message_priority fixtureProcessor fixtureNoTimestampsEvent rfl).1 rfl⟩

/-- C4: for every Annotated Value whose value variant mismatches the target
primitive type (and is not Null or absent), from_value yields an absent value
whose Meta has gained exactly one error describing the expected kind, the
input Meta's pre-existing errors and flags being carried through otherwise
(shown for the two primitive_meta_structure instantiations present in the
source, String and bool). -/
theorem c4_mismatched_variant_parsing (v : Value) (m : Meta) (hn : v ≠ Value.null) :
    (∀ (_hs : ∀ s, v ≠ Value.str s),
        String.from_value (some v, m)
          = (none, { errors := m.errors ++ ["expected a string"], flags := m.flags }))
    ∧ (∀ (_hb : ∀ b, v ≠ Value.bool b),
        Bool.from_value (some v, m)
          = (none, { errors := m.errors ++ ["expected a boolean"], flags := m.flags })) :=
  ⟨fun hs => String_from_value_mismatch v m hs hn,
   fun hb => Bool_from_value_mismatch v m hb hn⟩

/-- Witness for C4 at concrete inputs: a Bool value fed to the String parser
and a String value fed to the bool parser, each with pre-existing Meta. -/
theorem c4_mismatched_variant_parsing_witness :
    String.from_value (some (Value.bool true), ⟨["old"], ["truncated"]⟩)
      = (none, { errors := ["old", "expected a string"], flags := ["truncated"] })
    ∧ Bool.from_value (some (Value.str "x"), ⟨["old"], ["truncated"]⟩)
      = (none, { errors := ["old", "expected a boolean"], flags := ["truncated"] }) :=
  ⟨(c4_mismatched_variant_parsing (Value.bool true) ⟨["old"], ["truncated"]⟩ nofun).1 nofun,
   (c4_mismatched_variant_parsing (Value.str "x") ⟨["old"], ["truncated"]⟩ nofun).2 nofun⟩

/-- C5: Vec::from_value on an Array of N elements produces a collection of
exactly N slots in the same order, each element parsed independently by the
element conversion; with the String element parser, a single malformed
element only makes its own slot absent with an error while every other slot
is the unaffected parse of its own input. -/
theorem c5_element_independence (items : List (Annotated Value)) (m : Meta) :
    (∀ (α : Type) (f : Annotated Value → Annotated α),
        Vec.from_value f (some (Value.array items), m) = (some (items.map f), m)
        ∧ (items.map f).length = items.length
        ∧ ∀ i : Nat, (items.map f)[i]? = (items[i]?).map f)
    ∧ (∀ (j : Nat) (v : Value), items[j]? = some (some v, Meta.empty) →
        (∀ s, v ≠ Value.str s) → v ≠ Value.null →
        ∃ slots, Vec.from_value String.from_value (some (Value.array items), m)
            = (some slots, m)
          ∧ slots[j]? = some (none, Meta.empty.add_error "expected a string")
          ∧ ∀ i : Nat, i ≠ j → slots[i]? = (items[i]?).map String.from_value) := by
  constructor
  · intro α f
    exact ⟨rfl, List.length_map _ _, fun i => List.getElem?_map ..⟩
  · intro j v hj hs hn
    refine ⟨items.map String.from_value, rfl, ?_, fun i _ => List.getElem?_map ..⟩
    have hmis := String_from_value_mismatch v Meta.empty hs hn
    simp [List.getElem?_map, hj, hmis]

/-- Witness for C5 at a concrete three-element array whose middle element is a
number fed to the String parser. -/
theorem c5_element_independence_witness :
    ∃ slots,
      Vec.from_value String.from_value
        (some (Value.array [ann (Value.str "a"), ann (Value.u64 7), ann (Value.str "b")]),
          Meta.empty) = (some slots, Meta.empty)
      ∧ slots[1]? = some (none, Meta.empty.add_error "expected a string")
      ∧ ∀ i : Nat, i ≠ 1 →
          slots[i]? = ([ann (Value.str "a"), ann (Value.u64 7),
            ann (Value.str "b")][i]?).map String.from_value :=
  (c5_element_independence [ann (Value.str "a"), ann (Value.u64 7), ann (Value.str "b")]
    Meta.empty).2 1 (Value.u64 7) rfl nofun nofun

/-- C7: the extract_meta_tree of the two composite ToValue implementations
(sequences and string-keyed mappings) attaches a child entry under its
key/index only if that child's extracted subtree is non-empty: no child entry
whose errors and flags are recursively all empty ever appears. -/
theorem c7_meta_tree_sparsity :
    (∀ (α : Type) (f : Annotated α → MetaTree) (value : Annotated (List (Annotated α)))
        (k : String) (t : MetaTree),
        (k, t) ∈ (Vec.extract_meta_tree f value).children → t.is_empty = false)
    ∧ (∀ (α : Type) (f : Annotated α → MetaTree)
        (value : Annotated (List (String × Annotated α)))
        (k : String) (t : MetaTree),
        (k, t) ∈ (Map.extract_meta_tree f value).children → t.is_empty = false) := by
  constructor
  · intro α f value k t ht
    rcases value with ⟨v, m⟩
    cases v with
    | none => simp [Vec.extract_meta_tree, MetaTree.children] at ht
    | some items =>
      simp only [Vec.extract_meta_tree, MetaTree.children, List.mem_filter] at ht
      simpa using ht.2
  · intro α f value k t ht
    rcases value with ⟨v, m⟩
    cases v with
    | none => simp [Map.extract_meta_tree, MetaTree.children] at ht
    | some items =>
      simp only [Map.extract_meta_tree, MetaTree.children, List.mem_filter] at ht
      simpa using ht.2

/-- Witness for C7 at a concrete singleton sequence whose element carries an
error: its subtree appears among the children and is non-empty. -/
theorem c7_meta_tree_sparsity_witness :
    (("0", MetaTree.node ⟨["boom"], []⟩ []) ∈
      (Vec.extract_meta_tree (extract_meta_tree_leaf (α := Bool))
        ((some [(some true, ⟨["boom"], []⟩)], Meta.empty) :
          Annotated (List (Annotated Bool)))).children)
    ∧ MetaTree.is_empty (MetaTree.node ⟨["boom"], []⟩ []) = false :=
  have hmem : ("0", MetaTree.node ⟨["boom"], []⟩ []) ∈
      (Vec.extract_meta_tree (extract_meta_tree_leaf (α := Bool))
        ((some [(some true, ⟨["boom"], []⟩)], Meta.empty) :
          Annotated (List (Annotated Bool)))).children := by
    have h0 : (Vec.extract_meta_tree (extract_meta_tree_leaf (α := Bool))
        ((some [(some true, ⟨["boom"], []⟩)], Meta.empty) :
          Annotated (List (Annotated Bool)))).children
        = [("0", MetaTree.node ⟨["boom"], []⟩ [])] := rfl
    rw [h0]
    exact List.mem_singleton.mpr rfl
  ⟨hmem, c7_meta_tree_sparsity.1 Bool (extract_meta_tree_leaf (α := Bool)) _ "0" _ hmem⟩

/-- C8: an event whose declared type is not "transaction" (including an
absent type) passes through process_event unchanged, with success and without
any state change or descent. -/
theorem c8_non_transaction_pass_through (p : TransactionsProcessor) (e : Event)
    (h : e.ty.1 ≠ some EventType.transaction) :
    process_event p e = some (Except.ok (), p, e) := by
  simp [process_event, h]

/-- Witness for C8 at a concrete event with an absent type. -/
theorem c8_non_transaction_pass_through_witness :
    fixtureUntypedEvent.ty.1 ≠ some EventType.transaction
    ∧ process_event fixtureProcessor fixtureUntypedEvent
        = some (Except.ok (), fixtureProcessor, fixtureUntypedEvent) :=
  ⟨by simp [fixtureUntypedEvent, annEmpty],
   c8_non_transaction_pass_through fixtureProcessor fixtureUntypedEvent
     (by simp [fixtureUntypedEvent, annEmpty])⟩

/-- On a nonnegative rational, truncation toward zero is the floor. -/
lemma ratTrunc_eq_floor (q : ℚ) (h : 0 ≤ q) : ratTrunc q = ⌊q⌋ := by
  rw [ratTrunc, if_pos (Rat.num_nonneg.mpr h), Rat.floor_def]

/-- On a negative rational, truncation toward zero is the ceiling. -/
lemma ratTrunc_eq_ceil (q : ℚ) (h : q < 0) : ratTrunc q = ⌈q⌉ := by
  have hn : ¬ 0 ≤ q.num := by rw [Rat.num_nonneg]; exact not_le.mpr h
  have h1 : ⌊-q⌋ = -q.num / (q.den : ℤ) := by
    rw [Rat.floor_def, Rat.num_neg_eq_neg_num, Rat.den_neg_eq_den]
  rw [ratTrunc, if_neg hn, ← h1, Int.floor_neg, neg_neg]

/-- Truncation of a nonnegative rational does not exceed it. -/
lemma ratTrunc_le (q : ℚ) (h : 0 ≤ q) : (ratTrunc q : ℚ) ≤ q := by
  rw [ratTrunc_eq_floor q h]
  exact Int.floor_le q

/-- A nonnegative rational is below its truncation plus one. -/
lemma lt_ratTrunc_add_one (q : ℚ) (h : 0 ≤ q) : q < (ratTrunc q : ℚ) + 1 := by
  rw [ratTrunc_eq_floor q h]
  exact_mod_cast Int.lt_floor_add_one q

/-- The fractional part left by truncation toward zero is below one. -/
lemma sub_ratTrunc_lt_one (q : ℚ) : q - (ratTrunc q : ℚ) < 1 := by
  rcases le_or_lt 0 q with h | h
  · have := lt_ratTrunc_add_one q h
    linarith
  · rw [ratTrunc_eq_ceil q h]
    have := Int.le_ceil q
    linarith

/-- Truncation of a nonnegative rational is nonnegative. -/
lemma ratTrunc_nonneg (q : ℚ) (h : 0 ≤ q) : 0 ≤ ratTrunc q := by
  rw [ratTrunc_eq_floor q h]
  exact Int.floor_nonneg.mpr h

/-- The microsecond count computed from any fractional part stays below one
million, so the nanosecond argument to timestamp_opt is always admissible. -/
lemma f64_micros_lt (q : ℚ) :
    f64_as_u32 ((q - (ratTrunc q : ℚ)) * 1000000) < 1000000 := by
  unfold f64_as_u32
  split
  · norm_num
  · rename_i hneg
    have h0 : (0 : ℚ) ≤ (q - (ratTrunc q : ℚ)) * 1000000 := le_of_not_lt hneg
    have h1 : (q - (ratTrunc q : ℚ)) * 1000000 < 1000000 := by
      have := sub_ratTrunc_lt_one q
      nlinarith
    split
    · rename_i hbig
      exact absurd (hbig.trans h1) (by norm_num)
    · have h2 : (ratTrunc ((q - (ratTrunc q : ℚ)) * 1000000) : ℚ) < 1000000 :=
        lt_of_le_of_lt (ratTrunc_le _ h0) h1
      have h3 : ratTrunc ((q - (ratTrunc q : ℚ)) * 1000000) < 1000000 := by exact_mod_cast h2
      omega

/-- Counterexample to C3 as stated: the numeric-epoch DateTime conversion
unwraps Utc.timestamp_opt, and at the out-of-range epoch i64::MAX that unwrap
fires on none - the conversion panics (modelled by the none result) instead of
recording an error in Meta. -/
theorem c3_numeric_epoch_panic :
    DateTime.from_value reject_all_strings
      (some (Value.i64 9223372036854775807), Meta.empty) = none := by rfl

/-- C3 as amended: from_value for DateTime terminates normally on every input
whose numeric epoch stays inside chrono's representable range (and on every
non-numeric input), recording any conversion failure as one appended error in
Meta with the flags untouched; only a numeric epoch outside the representable
range panics. -/
theorem c3_no_panic_in_chrono_range (parse : String → Except String DateTime)
    (v : Option Value) (m : Meta) (h : numeric_epoch_in_range v = true) :
    ∃ val m2, DateTime.from_value parse (v, m) = some (val, m2)
      ∧ m2.flags = m.flags
      ∧ (m2.errors = m.errors ∨ ∃ msg, m2.errors = m.errors ++ [msg]) := by
  rcases v with _ | val
  · exact ⟨none, m, rfl, rfl, Or.inl rfl⟩
  · cases val with
    | null => exact ⟨none, m, rfl, rfl, Or.inl rfl⟩
    | bool b => exact ⟨none, m.add_error "expected timestamp", rfl, rfl, Or.inr ⟨_, rfl⟩⟩
    | array items => exact ⟨none, m.add_error "expected timestamp", rfl, rfl, Or.inr ⟨_, rfl⟩⟩
    | object items => exact ⟨none, m.add_error "expected timestamp", rfl, rfl, Or.inr ⟨_, rfl⟩⟩
    | str s =>
      cases hp : parse s with
      | ok dt =>
        refine ⟨some dt, m, ?_, rfl, Or.inl rfl⟩
        simp [DateTime.from_value, hp]
      | error err =>
        refine ⟨none, m.add_error err, ?_, rfl, Or.inr ⟨_, rfl⟩⟩
        simp [DateTime.from_value, hp]
    | u64 n =>
      simp only [numeric_epoch_in_range, Bool.and_eq_true, decide_eq_true_eq] at h
      refine ⟨some ⟨u64_as_i64 n, 0⟩, m, ?_, rfl, Or.inl rfl⟩
      simp only [DateTime.from_value]
      rw [timestamp_opt, if_pos ⟨h.1, h.2, by norm_num⟩]
      rfl
    | i64 i =>
      simp only [numeric_epoch_in_range, Bool.and_eq_true, decide_eq_true_eq] at h
      refine ⟨some ⟨i, 0⟩, m, ?_, rfl, Or.inl rfl⟩
      simp only [DateTime.from_value]
      rw [timestamp_opt, if_pos ⟨h.1, h.2, by norm_num⟩]
      rfl
    | f64 q =>
      simp only [numeric_epoch_in_range, Bool.and_eq_true, decide_eq_true_eq] at h
      refine ⟨some ⟨f64_as_i64 q,
        f64_as_u32 ((q - (ratTrunc q : ℚ)) * 1000000) * 1000⟩, m, ?_, rfl, Or.inl rfl⟩
      simp only [DateTime.from_value]
      rw [timestamp_opt, if_pos ⟨h.1, h.2, by have := f64_micros_lt q; omega⟩]
      rfl

/-- Witness for the amended C3 at a concrete in-range numeric epoch. -/
theorem c3_no_panic_in_chrono_range_witness :
    numeric_epoch_in_range (some (Value.u64 946684800)) = true
    ∧ ∃ val m2, DateTime.from_value reject_all_strings
        (some (Value.u64 946684800), Meta.empty) = some (val, m2)
      ∧ m2.flags = Meta.empty.flags
      ∧ (m2.errors = Meta.empty.errors
         ∨ ∃ msg, m2.errors = Meta.empty.errors ++ [msg]) :=
  ⟨rfl, c3_no_panic_in_chrono_range reject_all_strings
    (some (Value.u64 946684800)) Meta.empty rfl⟩

/-- Counterexample to C6 as stated: the float epoch minus three halves parses
cleanly (no error is recorded), yet the negative fractional part is clamped to
zero microseconds by the u32 cast, so the round trip yields minus one - off by
half a second, far beyond the declared microsecond precision. -/
theorem c6_round_trip_counterexample :
    DateTime.from_value reject_all_strings (some (Value.f64 (-(3/2 : ℚ))), Meta.empty)
      = some (some ⟨-1, 0⟩, Meta.empty)
    ∧ DateTime.to_value (some ⟨-1, 0⟩, Meta.empty) = (some (Value.f64 (-1 : ℚ)), Meta.empty)
    ∧ (-1 : ℚ) - (-(3/2 : ℚ)) = 1/2
    ∧ ¬ ((1/2 : ℚ) < 1/1000000) := by
  have ht : ratTrunc (-(3/2 : ℚ)) = -1 := by
    rw [ratTrunc_eq_ceil _ (by norm_num), Int.ceil_eq_iff]
    constructor <;> norm_num
  have hsec : f64_as_i64 (-(3/2 : ℚ)) = -1 := by
    rw [f64_as_i64, if_neg (by norm_num), if_neg (by norm_num), ht]
  have hmic : f64_as_u32 ((-(3/2 : ℚ) - (ratTrunc (-(3/2 : ℚ)) : ℚ)) * 1000000) = 0 := by
    rw [ht, f64_as_u32, if_pos (by push_cast; norm_num)]
  refine ⟨?_, ?_, by norm_num, by norm_num⟩
  · simp only [DateTime.from_value]
    rw [hsec, hmic, timestamp_opt,
      if_pos (by norm_num [chronoMinTimestamp, chronoMaxTimestamp])]
    rfl
  · dsimp only [DateTime.to_value, datetime_to_timestamp]
    norm_num

/-- C6 as amended: a value parsing cleanly round-trips its numeric and
temporal content only up to the conversions' lossy casts - primitives exactly
(String and bool, the instantiations in the source); in-range i64 epochs
exactly; a u64 epoch (any value below 2^64 whose wrapped reinterpretation
lands in range, so that it parses cleanly) to its wrapping i64
reinterpretation, which equals the input exactly when it is below 2^63 and is
a negative epoch otherwise (u64::MAX round-trips to minus one); a nonnegative
in-range float epoch to its microsecond truncation, i.e. within one
microsecond below the input; negative fractional epochs are excluded, their
fraction being clamped to zero by the cast. -/
theorem c6_round_trip (parse : String → Except String DateTime) :
    (∀ (s : String) (m : Meta),
        String.to_value (String.from_value (some (Value.str s), m)) = (some (Value.str s), m))
    ∧ (∀ (b : Bool) (m : Meta),
        Bool.to_value (Bool.from_value (some (Value.bool b), m)) = (some (Value.bool b), m))
    ∧ (∀ (ts : Int) (m : Meta), chronoMinTimestamp ≤ ts → ts ≤ chronoMaxTimestamp →
        (DateTime.from_value parse (some (Value.i64 ts), m)).map DateTime.to_value
          = some (some (Value.f64 (ts : ℚ)), m))
    ∧ (∀ (n : Nat) (m : Meta), n < 18446744073709551616 →
        chronoMinTimestamp ≤ u64_as_i64 n → u64_as_i64 n ≤ chronoMaxTimestamp →
        (DateTime.from_value parse (some (Value.u64 n), m)).map DateTime.to_value
          = some (some (Value.f64 ((u64_as_i64 n : ℤ) : ℚ)), m)
        ∧ (n < 9223372036854775808 → ((u64_as_i64 n : ℤ) : ℚ) = (n : ℚ)))
    ∧ (∀ (q : ℚ) (m : Meta), 0 ≤ q → q ≤ (chronoMaxTimestamp : ℚ) →
        ∃ r, (DateTime.from_value parse (some (Value.f64 q), m)).map DateTime.to_value
            = some (some (Value.f64 r), m)
          ∧ r = (ratTrunc (q * 1000000) : ℚ) / 1000000
          ∧ r ≤ q ∧ q - 1/1000000 < r) := by
  refine ⟨fun s m => rfl, fun b m => rfl, ?_, ?_, ?_⟩
  · intro ts m h1 h2
    simp only [DateTime.from_value]
    rw [timestamp_opt, if_pos ⟨h1, h2, by norm_num⟩]
    simp [DateTime.to_value, datetime_to_timestamp]
  · intro n m _hn64 h1 h2
    constructor
    · simp only [DateTime.from_value]
      rw [timestamp_opt, if_pos ⟨h1, h2, by norm_num⟩]
      simp [DateTime.to_value, datetime_to_timestamp]
    · intro hsmall
      rw [u64_as_i64, if_pos hsmall]
      exact_mod_cast rfl
  · intro q m hq hqmax
    have htr : (ratTrunc q : ℚ) ≤ q := ratTrunc_le q hq
    have htr0 : 0 ≤ ratTrunc q := ratTrunc_nonneg q hq
    have hqlt : q < 9223372036854775807 := by
      norm_num [chronoMaxTimestamp] at hqmax
      linarith
    have hsec : f64_as_i64 q = ratTrunc q := by
      rw [f64_as_i64, if_neg (by linarith), if_neg (by push_neg; linarith)]
    have hfr0 : (0 : ℚ) ≤ (q - (ratTrunc q : ℚ)) * 1000000 := by nlinarith
    have hfr1 : (q - (ratTrunc q : ℚ)) * 1000000 < 1000000 := by
      have := sub_ratTrunc_lt_one q
      nlinarith
    have hmic : f64_as_u32 ((q - (ratTrunc q : ℚ)) * 1000000)
        = (ratTrunc ((q - (ratTrunc q : ℚ)) * 1000000)).toNat := by
      rw [f64_as_u32, if_neg (not_lt.mpr hfr0), if_neg (by push_neg; linarith)]
    have hmic0 : 0 ≤ ratTrunc ((q - (ratTrunc q : ℚ)) * 1000000) := ratTrunc_nonneg _ hfr0
    have hkey : ratTrunc ((q - (ratTrunc q : ℚ)) * 1000000)
        = ratTrunc (q * 1000000) - ratTrunc q * 1000000 := by
      rw [ratTrunc_eq_floor ((q - (ratTrunc q : ℚ)) * 1000000) hfr0,
        ratTrunc_eq_floor (q * 1000000) (by positivity)]
      have harg : (q - (ratTrunc q : ℚ)) * 1000000
          = q * 1000000 - ((ratTrunc q * 1000000 : ℤ) : ℚ) := by
        push_cast
        ring
      rw [harg, Int.floor_sub_int]
    have hmcast : ((ratTrunc ((q - (ratTrunc q : ℚ)) * 1000000)).toNat : ℚ)
        = (ratTrunc (q * 1000000) : ℚ) - (ratTrunc q : ℚ) * 1000000 := by
      have h1 : ((ratTrunc ((q - (ratTrunc q : ℚ)) * 1000000)).toNat : ℤ)
          = ratTrunc (q * 1000000) - ratTrunc q * 1000000 := by
        rw [Int.toNat_of_nonneg hmic0, hkey]
      exact_mod_cast congrArg (fun z : ℤ => (z : ℚ)) h1
    have hrange : chronoMinTimestamp ≤ ratTrunc q ∧ ratTrunc q ≤ chronoMaxTimestamp
        ∧ (ratTrunc ((q - (ratTrunc q : ℚ)) * 1000000)).toNat * 1000 < 2000000000 := by
      refine ⟨le_trans (by norm_num [chronoMinTimestamp]) htr0, ?_, ?_⟩
      · have : (ratTrunc q : ℚ) ≤ (chronoMaxTimestamp : ℚ) := le_trans htr hqmax
        exact_mod_cast this
      · have := f64_micros_lt q
        rw [hmic] at this
        omega
    refine ⟨(ratTrunc (q * 1000000) : ℚ) / 1000000, ?_, rfl, ?_, ?_⟩
    · simp only [DateTime.from_value]
      rw [hsec, hmic, timestamp_opt, if_pos hrange]
      dsimp only [Option.map, DateTime.to_value, datetime_to_timestamp]
      have hsub : (ratTrunc ((q - (ratTrunc q : ℚ)) * 1000000)).toNat * 1000 / 1000
          = (ratTrunc ((q - (ratTrunc q : ℚ)) * 1000000)).toNat := by omega
      rw [hsub]
      have heq : (ratTrunc q : ℚ)
            + ((ratTrunc ((q - (ratTrunc q : ℚ)) * 1000000)).toNat : ℚ) / 1000000
          = (ratTrunc (q * 1000000) : ℚ) / 1000000 := by
        rw [hmcast]
        ring
      rw [heq]
    · have h1 : (ratTrunc (q * 1000000) : ℚ) ≤ q * 1000000 := ratTrunc_le _ (by positivity)
      rw [div_le_iff₀ (by norm_num : (0:ℚ) < 1000000)]
      linarith
    · have h1 : q * 1000000 < (ratTrunc (q * 1000000) : ℚ) + 1 :=
        lt_ratTrunc_add_one _ (by positivity)
      rw [lt_div_iff₀ (by norm_num : (0:ℚ) < 1000000)]
      nlinarith

/-- Witness for the amended C6 at a concrete in-range i64 epoch and at the
wrapping u64 epoch u64::MAX, whose reinterpretation is minus one. -/
theorem c6_round_trip_witness :
    chronoMinTimestamp ≤ (946684800 : Int) ∧ (946684800 : Int) ≤ chronoMaxTimestamp
    ∧ (DateTime.from_value reject_all_strings
        (some (Value.i64 946684800), Meta.empty)).map DateTime.to_value
      = some (some (Value.f64 ((946684800 : Int) : ℚ)), Meta.empty)
    ∧ chronoMinTimestamp ≤ u64_as_i64 18446744073709551615
    ∧ u64_as_i64 18446744073709551615 ≤ chronoMaxTimestamp
    ∧ u64_as_i64 18446744073709551615 = -1
    ∧ (DateTime.from_value reject_all_strings
        (some (Value.u64 18446744073709551615), Meta.empty)).map DateTime.to_value
      = some (some (Value.f64 ((u64_as_i64 18446744073709551615 : ℤ) : ℚ)), Meta.empty) :=
  ⟨by decide, by decide,
    (c6_round_trip reject_all_strings).2.2.1 946684800 Meta.empty (by decide) (by decide),
    by decide, by decide, by decide,
    ((c6_round_trip reject_all_strings).2.2.2.1 18446744073709551615 Meta.empty
      (by decide) (by decide) (by decide)).1⟩

/-- C10: there is a transaction event (empty transaction name, valid ordered
timestamps, a valid trace context missing only its operation name, and a null
entry in its span list) for which process_event returns an invalid-transaction
error while the event has already been mutated: the transaction name carries
the placeholder and the trace-context operation name has been defaulted. -/
theorem c10_rejection_not_atomic :
    ∃ p1 e1,
      process_event fixtureProcessor fixtureNullSpanEvent =
        some (Except.error (ProcessingAction.invalidTransaction
          "spans must be valid in transaction event"), p1, e1)
      ∧ e1.transaction.1 = some "<unlabeled transaction>"
      ∧ trace_op_value e1 = some "default" :=
  ⟨_, _, rfl, rfl, rfl⟩

end Relay

